import Mathlib

/-!
# The `system` collector of categraf (`inputs/system/system.go`)

A shallow embedding of `SystemStats`: `getInterval`, `Gather`, `GatherOnce`,
`StopGoroutines`, `StartGoroutines` and `LoopGather`.

Conventions of the embedding

* `float64` is a type parameter `F` with its division (`Div F`) and the
  conversion `float64(n)` of an integer (`IntCast F`); every theorem holds for
  each interpretation of the two, IEEE-754 binary64 included.  Concrete runs
  take `F := ℚ` on values that binary64 represents and divides exactly.
* Go `int64` / `time.Duration` values are integers; the one arithmetic
  operation of the file (`*` in `getInterval`) wraps to 64 bits explicitly.
* A Go result pair `(v, err)` is a pair whose second component is
  `Option Error` (`none` is `nil`); `*load.AvgStat` is `Option (AvgStat F)`
  (`none` is the nil pointer).
* `log.Println` appends one line to a `Log`.
* A run-time panic is a value `PanicValue` that carries the text
  `fmt.Sprint(r)` prints for it.
* Channels: the output queue records the samples sent on it, and may be
  closed by its owner while the collector is sending; the `quit` channel is
  part of the state of the loop's transition system.
-/

namespace System

variable {F : Type}

/-- The constant `InputName`. -/
def InputName : String := "system"

/-! ## Strings -/

/-- Whether `p` is an initial segment of the second list. -/
def startsWith : List Char → List Char → Bool
  | [], _ => true
  | _ :: _, [] => false
  | p :: ps, c :: cs => p == c && startsWith ps cs

/-- Whether `sub` occurs in the second list as a contiguous block. -/
def containsChars (sub : List Char) : List Char → Bool
  | [] => sub.isEmpty
  | c :: cs => startsWith sub (c :: cs) || containsChars sub cs

/-- Go `strings.Contains(s, substr)`. -/
def stringsContains (s substr : String) : Bool :=
  containsChars substr.toList s.toList

/-- Lines written through `log.Println`, oldest first. -/
abbrev Log := List String

/-- Go `log.Println(a, b)`: the operands separated by one blank. -/
def Println (a b : String) : String := a ++ " " ++ b

/-! ## Values of the collaborators -/

/-- Class of an error, as `os.IsNotExist` and `os.IsPermission` tell it. -/
inductive ErrClass where
  | notExist
  | permission
  | other
deriving DecidableEq, Repr

/-- A non-nil Go `error`: the text of `err.Error()` and its class. -/
structure Error where
  msg : String
  cls : ErrClass
deriving DecidableEq, Repr

/-- Go `os.IsNotExist(err)`. -/
def IsNotExist (e : Error) : Bool := e.cls == ErrClass.notExist

/-- Go `os.IsPermission(err)`. -/
def IsPermission (e : Error) : Bool := e.cls == ErrClass.permission

/-- The struct `load.AvgStat` of gopsutil. -/
structure AvgStat (F : Type) where
  Load1 : F
  Load5 : F
  Load15 : F
deriving DecidableEq, Repr

/-- The struct `host.UserStat` of gopsutil. -/
structure UserStat where
  User : String
  Terminal : String
  Host : String
  Started : Int
deriving DecidableEq, Repr

/-- A value stored in `map[string]interface{}` by `Gather`: a `float64`
(loads), an `int` (`n_cpus`, `n_users`) or a `uint64` (`uptime`). -/
inductive FieldValue (F : Type) where
  | float64 (x : F)
  | int (n : Int)
  | uint64 (n : Nat)
deriving DecidableEq, Repr

/-- The map `fields` of `Gather`, as the list of its entries; keys are unique. -/
abbrev FieldSet (F : Type) := List (String × FieldValue F)

/-- Go `fields[k]` with the comma-ok form: the value stored under `k`, if any. -/
def FieldSet.get (m : FieldSet F) (k : String) : Option (FieldValue F) :=
  List.lookup k m

/-- Go `fields[k] = v`: overwrite the entry of `k`, or add one. -/
def FieldSet.set (m : FieldSet F) (k : String) (v : FieldValue F) : FieldSet F :=
  if m.any (fun e => e.1 == k) then
    m.map (fun e => if e.1 == k then (k, v) else e)
  else
    m ++ [(k, v)]

/-- The struct `types.Sample`; `Timestamp` is an instant of an abstract clock. -/
structure Sample (F : Type) where
  Metric : String
  Timestamp : Nat
  Value : FieldValue F
  Labels : List (String × String)
deriving DecidableEq, Repr

/-- Modelled from the spec: `inputs.NewSamples` is declared outside
`inputs/system`; section 4.4 has it make one Sample per entry of the FieldSet,
named after the field, carrying its numeric value and an empty tag set.  The
timestamp is the zero instant until `GatherOnce` assigns one.  Each sample is a
fresh allocation, so the slice of pointers is modelled by the list of the
records pointed to.  Go leaves the order in which a map is ranged over open;
the list follows the order of the entries, and the theorems on `GatherOnce`
are stated for whatever list `Gather` returns. -/
def NewSamples (fields : FieldSet F) : List (Sample F) :=
  fields.map (fun e => { Metric := e.1, Timestamp := 0, Value := e.2, Labels := [] })

/-- A value handed to `panic`, with the text `fmt.Sprint` gives for it. -/
structure PanicValue where
  text : String
deriving DecidableEq, Repr

/-- The run-time error of reading a field through a nil pointer. -/
def nilDereference : PanicValue :=
  ⟨"runtime error: invalid memory address or nil pointer dereference"⟩

/-- The run-time error of `ch <- v` on a closed channel. -/
def sendOnClosed : PanicValue := ⟨"send on closed channel"⟩

/-- What the operating system answers during one gather cycle: the results of
`load.Avg()`, `cpu.Counts(true)`, `host.Uptime()`, `host.Users()` and the
instant `time.Now()` reads. -/
structure Env (F : Type) where
  loadAvg : Option (AvgStat F) × Option Error
  cpuCounts : Int × Option Error
  uptime : Nat × Option Error
  users : List UserStat × Option Error
  now : Nat

/-- The exported fields of `SystemStats`; the channel `quit` lives in `Sys`. -/
structure SystemStats where
  PrintConfigs : Bool
  IntervalSeconds : Int
  CollectUserNumber : Bool
deriving DecidableEq, Repr

/-! ## `getInterval` -/

/-- The value an `int64` holds after an operation whose exact result is `x`. -/
def wrapInt64 (x : Int) : Int := (x + 2 ^ 63) % 2 ^ 64 - 2 ^ 63

/-- Whether `x` is a value of `int64`. -/
def isInt64 (x : Int) : Prop := -(2 ^ 63) ≤ x ∧ x < 2 ^ 63

/-- Go `time.Second`, in nanoseconds. -/
def Second : Int := 1000000000

/-- `SystemStats.getInterval`; `configInterval` is what `config.GetInterval()`
returns. -/
def getInterval (s : SystemStats) (configInterval : Int) : Int :=
  if s.IntervalSeconds ≠ 0 then
    wrapInt64 (s.IntervalSeconds * Second)
  else
    configInterval

/-! ## `Gather` -/

/-- How the part of `Gather` before its last line ends. -/
inductive FieldsOutcome (F : Type) where
  /-- `return samples` with the nil slice, after a fatal query error. -/
  | aborted
  /-- A run-time panic. -/
  | panicked (r : PanicValue)
  /-- The last line is reached with this map. -/
  | fields (m : FieldSet F)

/-- Lines 122-127 of `Gather`: the uptime query. -/
def uptimeStep (env : Env F) (log : Log) (fields : FieldSet F) : Log × FieldSet F :=
  match env.uptime with
  | (_, some err) => (log ++ [Println "E! failed to get host uptime:" err.msg], fields)
  | (uptime, none) => (log, fields.set "uptime" (FieldValue.uint64 uptime))

/-- Lines 129-138 of `Gather`: the user-count query. -/
def usersStep (s : SystemStats) (env : Env F) (log : Log) (fields : FieldSet F) :
    Log × FieldSet F :=
  if s.CollectUserNumber then
    match env.users with
    | (users, none) => (log, fields.set "n_users" (FieldValue.int users.length))
    | (_, some err) =>
      if IsNotExist err then
        (log ++ [Println "W! reading os users:" err.msg], fields)
      else if IsPermission err then
        (log ++ [Println "W! reading os users:" err.msg], fields)
      else
        (log, fields)
  else
    (log, fields)

/-- Lines 112-120 of `Gather`: the map literal, from the dereferenced
`loadavg` and `numCPUs`. -/
def baselineFields [Div F] [IntCast F] (la : AvgStat F) (numCPUs : Int) : FieldSet F :=
  [ ("load1", FieldValue.float64 la.Load1),
    ("load5", FieldValue.float64 la.Load5),
    ("load15", FieldValue.float64 la.Load15),
    ("n_cpus", FieldValue.int numCPUs),
    ("load_norm_1", FieldValue.float64 (la.Load1 / (numCPUs : F))),
    ("load_norm_5", FieldValue.float64 (la.Load5 / (numCPUs : F))),
    ("load_norm_15", FieldValue.float64 (la.Load15 / (numCPUs : F))) ]

/-- Lines 98-138 of `Gather`: the map `fields` as it stands when
`inputs.NewSamples` is called, or the way the function ends before. -/
def gatherFields [Div F] [IntCast F] (s : SystemStats) (env : Env F) (log : Log) :
    Log × FieldsOutcome F :=
  match env.loadAvg with
  | (loadavg, err) =>
    match err.filter (fun e => !stringsContains e.msg "not implemented") with
    | some e => (log ++ [Println "E! failed to gather system load:" e.msg], FieldsOutcome.aborted)
    | none =>
      match env.cpuCounts with
      | (_, some e) =>
        (log ++ [Println "E! failed to gather cpu number:" e.msg], FieldsOutcome.aborted)
      | (numCPUs, none) =>
        match loadavg with
        | none => (log, FieldsOutcome.panicked nilDereference)
        | some la =>
          let fields := baselineFields la numCPUs
          let r1 := uptimeStep env log fields
          let r2 := usersStep s env r1.1 r1.2
          (r2.1, FieldsOutcome.fields r2.2)

/-- `SystemStats.Gather`: the log it leaves and the slice it returns, or the
panic it raises. -/
def Gather [Div F] [IntCast F] (s : SystemStats) (env : Env F) (log : Log) :
    Log × Except PanicValue (List (Sample F)) :=
  match gatherFields s env log with
  | (log1, FieldsOutcome.aborted) => (log1, Except.ok [])
  | (log1, FieldsOutcome.panicked r) => (log1, Except.error r)
  | (log1, FieldsOutcome.fields m) => (log1, Except.ok (NewSamples m))

/-! ## The output queue and `GatherOnce` -/

/-- The channel `queue`, seen from this producer: the samples sent so far, and
how many more sends go through before the owner of the channel closes it
(`none`: it stays open). -/
structure Queue (F : Type) where
  sent : List (Sample F)
  closesAfter : Option Nat

/-- Go `queue <- x`: a panic on a closed channel, else the sample is handed
over. -/
def Queue.send (q : Queue F) (x : Sample F) : Except PanicValue (Queue F) :=
  match q.closesAfter with
  | some 0 => Except.error sendOnClosed
  | some (k + 1) => Except.ok { sent := q.sent ++ [x], closesAfter := some k }
  | none => Except.ok { sent := q.sent ++ [x], closesAfter := none }

/-- Whether the channel takes `n` more sends. -/
def Queue.accepts (q : Queue F) (n : Nat) : Prop :=
  ∀ k, q.closesAfter = some k → n ≤ k

/-- Body of the loop of `GatherOnce` on one element: stamp it, prefix its
name. -/
def stamp (now : Nat) (x : Sample F) : Sample F :=
  { x with Timestamp := now, Metric := InputName ++ "_" ++ x.Metric }

/-- Lines 90-94 of `GatherOnce`: the loop over `samples`. -/
def sendSamples (now : Nat) : List (Sample F) → Queue F → Queue F × Option PanicValue
  | [], q => (q, none)
  | x :: xs, q =>
    match q.send (stamp now x) with
    | Except.error r => (q, some r)
    | Except.ok q1 => sendSamples now xs q1

/-- The function body of `GatherOnce` (lines 83-94), its deferred call apart:
the queue and log it leaves, and the panic it ends in, if any. -/
def gatherOnceBody [Div F] [IntCast F] (s : SystemStats) (env : Env F) (q : Queue F)
    (log : Log) : Queue F × Log × Option PanicValue :=
  match Gather s env log with
  | (log1, Except.error r) => (q, log1, some r)
  | (log1, Except.ok samples) =>
    if samples.length = 0 then
      (q, log1, none)
    else
      let r := sendSamples env.now samples q
      (r.1, log1, r.2)

/-- The deferred function of `GatherOnce` (lines 73-81) when `recover()`
returns `r`. -/
def recovered (r : PanicValue) (log : Log) : Log :=
  if stringsContains r.text "closed channel" then
    log
  else
    log ++ [Println "E! gather metrics panic:" r.text]

/-- How a call of `GatherOnce` ends: the queue, the log, and the panic that
goes on to the caller, if any. -/
structure Returned (F : Type) where
  queue : Queue F
  log : Log
  escaped : Option PanicValue

/-- `SystemStats.GatherOnce`: the body, then the deferred function; a call of
`recover()` in the deferred function ends the panic. -/
def GatherOnce [Div F] [IntCast F] (s : SystemStats) (env : Env F) (q : Queue F)
    (log : Log) : Returned F :=
  match gatherOnceBody s env q log with
  | (q1, log1, none) => { queue := q1, log := log1, escaped := none }
  | (q1, log1, some r) => { queue := q1, log := recovered r log1, escaped := none }

/-! ## Unexpected run-time failures

`Gather` and `GatherOnce` above run with collaborators that return.  The
definitions below run the same statements while one of the calls of the cycle
may panic with a value of its own, and `GatherOnce` ends through the deferred
function as Go runs it: the panic goes on to the caller unless the deferred
function calls `recover()`. -/

/-- The places of a gather cycle where a panic can be raised from outside the
statements of `system.go`: the calls of `Gather` and `GatherOnce` into other
packages, and the iteration `i` of the sending loop (lines 91-93) before its
send. -/
inductive Call where
  | loadAvg
  | cpuCounts
  | uptime
  | users
  | newSamples
  | now
  | loop (i : Nat)
deriving DecidableEq, Repr

/-- An unexpected run-time failure: the place that raises it and its value. -/
structure Fault where
  call : Call
  value : PanicValue
deriving DecidableEq, Repr

/-- The panic raised when the cycle reaches `c`, if any. -/
def raised (fault : Option Fault) (c : Call) : Option PanicValue :=
  match fault with
  | some f => if f.call = c then some f.value else none
  | none => none

/-- Lines 98-138 of `Gather` as `gatherFields` has them, each call into
another package panicking when `fault` says so. -/
def gatherFieldsUnder [Div F] [IntCast F] (fault : Option Fault) (s : SystemStats)
    (env : Env F) (log : Log) : Log × FieldsOutcome F :=
  match raised fault Call.loadAvg with
  | some r => (log, FieldsOutcome.panicked r)
  | none =>
    match env.loadAvg with
    | (loadavg, err) =>
      match err.filter (fun e => !stringsContains e.msg "not implemented") with
      | some e =>
        (log ++ [Println "E! failed to gather system load:" e.msg], FieldsOutcome.aborted)
      | none =>
        match raised fault Call.cpuCounts with
        | some r => (log, FieldsOutcome.panicked r)
        | none =>
          match env.cpuCounts with
          | (_, some e) =>
            (log ++ [Println "E! failed to gather cpu number:" e.msg], FieldsOutcome.aborted)
          | (numCPUs, none) =>
            match loadavg with
            | none => (log, FieldsOutcome.panicked nilDereference)
            | some la =>
              let fields := baselineFields la numCPUs
              match raised fault Call.uptime with
              | some r => (log, FieldsOutcome.panicked r)
              | none =>
                let r1 := uptimeStep env log fields
                match (if s.CollectUserNumber then raised fault Call.users else none) with
                | some r => (r1.1, FieldsOutcome.panicked r)
                | none =>
                  let r2 := usersStep s env r1.1 r1.2
                  (r2.1, FieldsOutcome.fields r2.2)

/-- `SystemStats.Gather` under `fault`. -/
def GatherUnder [Div F] [IntCast F] (fault : Option Fault) (s : SystemStats) (env : Env F)
    (log : Log) : Log × Except PanicValue (List (Sample F)) :=
  match gatherFieldsUnder fault s env log with
  | (log1, FieldsOutcome.aborted) => (log1, Except.ok [])
  | (log1, FieldsOutcome.panicked r) => (log1, Except.error r)
  | (log1, FieldsOutcome.fields m) =>
    match raised fault Call.newSamples with
    | some r => (log1, Except.error r)
    | none => (log1, Except.ok (NewSamples m))

/-- Lines 90-94 of `GatherOnce` under `fault`, from iteration `i` on. -/
def sendSamplesUnder (fault : Option Fault) (now : Nat) :
    Nat → List (Sample F) → Queue F → Queue F × Option PanicValue
  | _, [], q => (q, none)
  | i, x :: xs, q =>
    match raised fault (Call.loop i) with
    | some r => (q, some r)
    | none =>
      match q.send (stamp now x) with
      | Except.error r => (q, some r)
      | Except.ok q1 => sendSamplesUnder fault now (i + 1) xs q1

/-- The function body of `GatherOnce` (lines 83-94) under `fault`. -/
def gatherOnceBodyUnder [Div F] [IntCast F] (fault : Option Fault) (s : SystemStats)
    (env : Env F) (q : Queue F) (log : Log) : Queue F × Log × Option PanicValue :=
  match GatherUnder fault s env log with
  | (log1, Except.error r) => (q, log1, some r)
  | (log1, Except.ok samples) =>
    if samples.length = 0 then
      (q, log1, none)
    else
      match raised fault Call.now with
      | some r => (q, log1, some r)
      | none =>
        let r := sendSamplesUnder fault env.now 0 samples q
        (r.1, log1, r.2)

/-- A function on its way out, while its deferred calls run: the panic it is
unwinding with, if any, and the log. -/
structure Unwinding where
  panicking : Option PanicValue
  log : Log
deriving DecidableEq, Repr

/-- Go `recover()` in a deferred function: hands back the value of the panic
under way and ends the panic; `nil` when there is none. -/
def recover (u : Unwinding) : Option PanicValue × Unwinding :=
  (u.panicking, { u with panicking := none })

/-- The deferred function of `GatherOnce` (lines 73-81). -/
def deferred (u : Unwinding) : Unwinding :=
  match recover u with
  | (some r, u1) =>
    if stringsContains r.text "closed channel" then
      u1
    else
      { u1 with log := u1.log ++ [Println "E! gather metrics panic:" r.text] }
  | (none, u1) => u1

/-- `SystemStats.GatherOnce` under `fault`: the body, then the deferred
function; the panic still under way after it goes on to the caller. -/
def GatherOnceUnder [Div F] [IntCast F] (fault : Option Fault) (s : SystemStats)
    (env : Env F) (q : Queue F) (log : Log) : Returned F :=
  match gatherOnceBodyUnder fault s env q log with
  | (q1, log1, p) =>
    let u := deferred { panicking := p, log := log1 }
    { queue := q1, log := u.log, escaped := u.panicking }

/-! ## `StartGoroutines`, `StopGoroutines` and `LoopGather` as a transition system -/

/-- Where the goroutine of `LoopGather` stands. -/
inductive LoopPc where
  /-- `StartGoroutines` has not been called. -/
  | idle
  /-- At the `select` statement (line 61): RUNNING, at an iteration boundary. -/
  | atSelect
  /-- In `time.Sleep(interval)` (line 66): RUNNING. -/
  | sleeping
  /-- In `s.GatherOnce(queue)` (line 67): RUNNING, a gather cycle under way. -/
  | gathering
  /-- Returned (line 64): STOPPED. -/
  | stopped
  /-- Ended by a panic nothing recovered. -/
  | crashed
deriving DecidableEq, Repr

/-- One collector with its goroutine, its unbuffered channel `quit` and the
callers of `StopGoroutines`. -/
structure Sys (F : Type) where
  pc : LoopPc
  /-- The local `interval` of `LoopGather`. -/
  interval : Int
  /-- Whether `close(s.quit)` has run. -/
  quitClosed : Bool
  /-- Calls of `StopGoroutines` blocked in `s.quit <- struct{}{}`. -/
  blocked : Nat
  /-- Calls of `StopGoroutines` that returned. -/
  returned : Nat
  /-- Calls of `StopGoroutines` that ended in a panic. -/
  panicked : Nat
  queue : Queue F
  log : Log

/-- What can happen next. -/
inductive Event (F : Type) where
  /-- `StartGoroutines(queue)`: the goroutine is created and reaches its loop. -/
  | start
  /-- A call of `StopGoroutines` begins. -/
  | stop
  /-- The loop executes its `select` statement. -/
  | select
  /-- The sleep of the loop ends and the call of `GatherOnce` begins. -/
  | wake
  /-- The call of `GatherOnce` runs to its end, the system answering `env`. -/
  | gather (env : Env F)

/-- Whether the event is a call of `StopGoroutines`. -/
def Event.isStop : Event F → Bool
  | Event.stop => true
  | _ => false

/-- Whether the event is the start of a gather cycle. -/
def Event.isWake : Event F → Bool
  | Event.wake => true
  | _ => false

/-- The collector as `inputs.Add` constructs it, before `StartGoroutines`. -/
def Sys.init (q : Queue F) : Sys F :=
  { pc := LoopPc.idle, interval := 0, quitClosed := false, blocked := 0, returned := 0,
    panicked := 0, queue := q, log := [] }

/-- `SystemStats.StopGoroutines`, `s.quit <- struct{}{}` on the unbuffered
channel: a panic when the channel is closed, else the caller blocks until the
loop receives. -/
def StopGoroutines (st : Sys F) : Sys F :=
  if st.quitClosed then
    { st with panicked := st.panicked + 1 }
  else
    { st with blocked := st.blocked + 1 }

/-- The `select` statement of `LoopGather` (lines 61-65) up to the sleep.
On a closed channel the receive of `case <-s.quit` succeeds at once and
`close(s.quit)` panics, which nothing recovers.  On an open channel with a
sender waiting, the receive releases one sender, `close(s.quit)` makes every
other blocked sender panic, and the function returns; no statement lies between
the receive and the `close`, they are one step.  Otherwise `default` is
taken and the loop goes to sleep. -/
def loopSelect (st : Sys F) : Sys F :=
  if st.quitClosed then
    { st with pc := LoopPc.crashed }
  else if 0 < st.blocked then
    { st with
      pc := LoopPc.stopped, quitClosed := true, returned := st.returned + 1,
      panicked := st.panicked + (st.blocked - 1), blocked := 0 }
  else
    { st with pc := LoopPc.sleeping }

/-- One step of the system; `none` when the event cannot happen in `st`. -/
def step [Div F] [IntCast F] (s : SystemStats) (configInterval : Int) (st : Sys F) :
    Event F → Option (Sys F)
  | Event.start =>
    if st.pc = LoopPc.idle then
      some { st with pc := LoopPc.atSelect, interval := getInterval s configInterval }
    else none
  | Event.stop => some (StopGoroutines st)
  | Event.select =>
    if st.pc = LoopPc.atSelect then some (loopSelect st) else none
  | Event.wake =>
    if st.pc = LoopPc.sleeping then some { st with pc := LoopPc.gathering } else none
  | Event.gather env =>
    if st.pc = LoopPc.gathering then
      let r := GatherOnce s env st.queue st.log
      match r.escaped with
      | none => some { st with pc := LoopPc.atSelect, queue := r.queue, log := r.log }
      | some _ => some { st with pc := LoopPc.crashed, queue := r.queue, log := r.log }
    else none

/-- The state an execution ends in; `none` when one of its events cannot
happen where it stands. -/
def run [Div F] [IntCast F] (s : SystemStats) (configInterval : Int) :
    Sys F → List (Event F) → Option (Sys F)
  | st, [] => some st
  | st, e :: es =>
    match step s configInterval st e with
    | none => none
    | some st1 => run s configInterval st1 es

/-- How many steps of an execution turn the cancellation token from armed
(`quit` open) to signaled (`quit` closed). -/
def closings [Div F] [IntCast F] (s : SystemStats) (configInterval : Int) :
    Sys F → List (Event F) → Nat
  | _, [] => 0
  | st, e :: es =>
    match step s configInterval st e with
    | none => 0
    | some st1 =>
      (if st.quitClosed = false ∧ st1.quitClosed = true then 1 else 0)
        + closings s configInterval st1 es

/-- The property "no gather cycle starts after Stop has been called" of an
execution: no `wake` follows a `stop`. -/
def NoGatherStartAfterStop (evs : List (Event F)) : Prop :=
  ∀ pre post, evs = pre ++ Event.stop :: post → ∀ e ∈ post, Event.isWake e = false

/-! ## Invariants of the loop -/

/-- No call of `StopGoroutines` has begun: the token is armed and nobody
waits on `quit`. -/
def Armed (st : Sys F) : Prop :=
  st.quitClosed = false ∧ st.blocked = 0 ∧ st.returned = 0 ∧
    st.pc ≠ LoopPc.stopped ∧ st.pc ≠ LoopPc.crashed

/-- A call of `StopGoroutines` has begun: either a sender waits on the open
channel and the loop runs, or the loop has taken the signal, closed the channel
and returned. -/
def Requested (st : Sys F) : Prop :=
  (st.quitClosed = false ∧ 0 < st.blocked ∧ st.returned = 0 ∧
      st.pc ≠ LoopPc.stopped ∧ st.pc ≠ LoopPc.crashed) ∨
    (st.quitClosed = true ∧ st.pc = LoopPc.stopped ∧ st.blocked = 0)

/-! ## Concrete inputs -/

/-- A collector with the default configuration. -/
def stats0 : SystemStats :=
  { PrintConfigs := false, IntervalSeconds := 0, CollectUserNumber := false }

/-- A collector that counts users. -/
def statsUsers : SystemStats :=
  { PrintConfigs := false, IntervalSeconds := 15, CollectUserNumber := true }

/-- Scenario 1 of the specification: loads 1, 2, 4 on 2 CPUs, up for 3600 s,
one user logged in. -/
def env1 : Env ℚ :=
  { loadAvg := (some { Load1 := 1, Load5 := 2, Load15 := 4 }, none),
    cpuCounts := (2, none),
    uptime := (3600, none),
    users := ([{ User := "root", Terminal := "tty1", Host := "", Started := 0 }], none),
    now := 1700000000 }

/-- An open queue nothing was sent on. -/
def queue0 : Queue ℚ := { sent := [], closesAfter := none }

/-- A queue its owner has closed. -/
def queueClosed : Queue ℚ := { sent := [], closesAfter := some 0 }

/-- The error `common.ErrNotImplementedError` of gopsutil. -/
def errNotImplemented : Error := { msg := "not implemented yet", cls := ErrClass.other }

/-- What gopsutil answers on a platform without a load average:
`load.Avg()` returns `nil, ErrNotImplementedError`. -/
def envNoLoad : Env ℚ := { env1 with loadAvg := (none, some errNotImplemented) }

/-- A cycle in which the load query fails with "permission denied". -/
def envLoadDenied : Env ℚ :=
  { env1 with loadAvg := (none, some ⟨"permission denied", ErrClass.permission⟩) }

/-- A cycle in which the load query is not implemented and the CPU-count query
fails. -/
def envNoCpu : Env ℚ :=
  { envNoLoad with cpuCounts := (0, some ⟨"no cpuinfo", ErrClass.notExist⟩) }

/-- A cycle in which the load query hands back zeros together with the error
"not implemented yet". -/
def envZeroLoad : Env ℚ :=
  { env1 with loadAvg := (some { Load1 := 0, Load5 := 0, Load15 := 0 }, some errNotImplemented) }

/-- A panic raised inside `host.Uptime()`. -/
def faultUptime : Fault :=
  { call := Call.uptime, value := ⟨"runtime error: index out of range [3] with length 3"⟩ }

/-- A panic raised in the third iteration of the sending loop. -/
def faultLoop : Fault :=
  { call := Call.loop 2, value := ⟨"runtime error: invalid memory address or nil pointer dereference"⟩ }

/-- An execution in which `StopGoroutines` is called once, after
`StartGoroutines`, while the loop sleeps. -/
def stopWhileAsleep : List (Event ℚ) :=
  [Event.start, Event.select, Event.stop, Event.wake, Event.gather env1, Event.select]

/-- An execution in which the loop takes the signal of the one call of
`StopGoroutines`. -/
def stopObserved : List (Event ℚ) :=
  [Event.start, Event.stop, Event.select]

/-- The state `stopWhileAsleep` ends in. -/
def afterStopWhileAsleep : Sys ℚ :=
  { pc := LoopPc.stopped, interval := 15000000000, quitClosed := true, blocked := 0,
    returned := 1, panicked := 0, queue := (GatherOnce statsUsers env1 queue0 []).queue,
    log := [] }

/-- The state `stopObserved` ends in. -/
def afterStopObserved : Sys ℚ :=
  { pc := LoopPc.stopped, interval := 15000000000, quitClosed := true, blocked := 0,
    returned := 1, panicked := 0, queue := queue0, log := [] }

/-! ## Lemmas on the field map -/

theorem lookup_cons_self {β : Type} (k : String) (b : β) (m : List (String × β)) :
    List.lookup k ((k, b) :: m) = some b := by
  simp [List.lookup]

theorem lookup_cons_ne {β : Type} (k a : String) (b : β) (m : List (String × β))
    (h : k ≠ a) : List.lookup k ((a, b) :: m) = List.lookup k m := by
  have h1 : (k == a) = false := by simpa using h
  simp [List.lookup, h1]

theorem lookup_append_single {β : Type} (m : List (String × β)) (k k1 : String) (v : β) :
    List.lookup k1 (m ++ [(k, v)]) =
      match List.lookup k1 m with
      | some w => some w
      | none => if k1 = k then some v else none := by
  induction m with
  | nil =>
    by_cases h : k1 = k
    · subst h; simp [lookup_cons_self]
    · simp [lookup_cons_ne _ _ _ _ h, h]
  | cons e m ih =>
    obtain ⟨a, b⟩ := e
    by_cases h : k1 = a
    · subst h; simp [lookup_cons_self]
    · simp only [List.cons_append, lookup_cons_ne _ _ _ _ h, ih]

theorem lookup_map_replace {β : Type} (m : List (String × β)) (k k1 : String) (v : β)
    (h : k1 ≠ k) :
    List.lookup k1 (m.map (fun e => if e.1 == k then (k, v) else e)) = List.lookup k1 m := by
  induction m with
  | nil => rfl
  | cons e m ih =>
    obtain ⟨a, b⟩ := e
    by_cases ha : a = k
    · subst ha
      have h2 : (a == a) = true := by simp
      simp only [List.map_cons, h2, if_true, lookup_cons_ne _ _ _ _ h, ih]
    · have h2 : (a == k) = false := by simpa using ha
      simp only [List.map_cons, h2]
      by_cases hk : k1 = a
      · subst hk; simp [lookup_cons_self]
      · simpa [lookup_cons_ne _ _ _ _ hk] using ih

/-- Writing the key `k` leaves every other key as it was. -/
theorem get_set_ne (m : FieldSet F) (k k1 : String) (v : FieldValue F) (h : k1 ≠ k) :
    (m.set k v).get k1 = m.get k1 := by
  unfold FieldSet.set FieldSet.get
  split
  · exact lookup_map_replace m k k1 v h
  · rw [lookup_append_single]
    cases List.lookup k1 m <;> simp [h]

/-- Reading back the key just written gives the value written. -/
theorem get_set_self (m : FieldSet F) (k : String) (v : FieldValue F) :
    (m.set k v).get k = some v := by
  unfold FieldSet.set FieldSet.get
  split
  · rename_i hany
    induction m with
    | nil => simp at hany
    | cons e m ih =>
      obtain ⟨a, b⟩ := e
      by_cases ha : a = k
      · subst ha
        have h2 : (a == a) = true := by simp
        simp only [List.map_cons, h2, if_true, lookup_cons_self]
      · have h2 : (a == k) = false := by simpa using ha
        have h3 : k ≠ a := fun h => ha h.symm
        simp only [List.any_cons, h2, Bool.false_or] at hany
        simp only [List.map_cons, h2, Bool.false_eq_true, if_false, lookup_cons_ne _ _ _ _ h3]
        exact ih hany
  · rename_i hany
    rw [lookup_append_single]
    cases h : List.lookup k m <;> simp
    rename_i w
    exfalso
    apply hany
    clear hany
    induction m with
    | nil => simp [List.lookup] at h
    | cons e m ih =>
      obtain ⟨a, b⟩ := e
      by_cases ha : k = a
      · subst ha; simp
      · rw [lookup_cons_ne _ _ _ _ ha] at h
        simp only [List.any_cons, ih h, Bool.or_true]

/-! ## Lemmas on `Gather` -/

theorem uptimeStep_get_ne (env : Env F) (log : Log) (m : FieldSet F) (k : String)
    (h : k ≠ "uptime") : (uptimeStep env log m).2.get k = m.get k := by
  unfold uptimeStep
  split
  · rfl
  · exact get_set_ne m "uptime" k _ h

theorem usersStep_get_ne (s : SystemStats) (env : Env F) (log : Log) (m : FieldSet F)
    (k : String) (h : k ≠ "n_users") : (usersStep s env log m).2.get k = m.get k := by
  unfold usersStep
  split
  · split
    · exact get_set_ne m "n_users" k _ h
    · split
      · rfl
      · split <;> rfl
  · rfl

/-- When the load query hands back a value and no fatal error, and the CPU
count is there, `Gather` reaches its last line with the baseline map run
through the uptime and user steps. -/
theorem gatherFields_reached [Div F] [IntCast F] (s : SystemStats) (env : Env F) (log : Log)
    (la : AvgStat F) (err : Option Error) (n : Int)
    (hload : env.loadAvg = (some la, err))
    (herr : err.filter (fun e => !stringsContains e.msg "not implemented") = none)
    (hcpu : env.cpuCounts = (n, none)) :
    gatherFields s env log =
      ((usersStep s env (uptimeStep env log (baselineFields la n)).1
          (uptimeStep env log (baselineFields la n)).2).1,
       FieldsOutcome.fields
        (usersStep s env (uptimeStep env log (baselineFields la n)).1
          (uptimeStep env log (baselineFields la n)).2).2) := by
  unfold gatherFields
  rw [hload]
  simp only [herr, hcpu]

/-- What the user step leaves under a key depends on the map it gets through
that key alone. -/
theorem usersStep_get_congr (s : SystemStats) (env env2 : Env F) (log log2 : Log)
    (m m2 : FieldSet F) (k : String) (hu : env.users = env2.users)
    (h : m.get k = m2.get k) :
    (usersStep s env log m).2.get k = (usersStep s env2 log2 m2).2.get k := by
  unfold usersStep
  rw [hu]
  split
  · split
    · by_cases hk : k = "n_users"
      · subst hk
        rw [get_set_self, get_set_self]
      · rw [get_set_ne _ _ _ _ hk, get_set_ne _ _ _ _ hk]
        exact h
    · split
      · exact h
      · split <;> exact h
  · exact h

/-- The last line of `Gather`. -/
theorem Gather_of_fields [Div F] [IntCast F] (s : SystemStats) (env : Env F) (log log1 : Log)
    (m : FieldSet F) (h : gatherFields s env log = (log1, FieldsOutcome.fields m)) :
    Gather s env log = (log1, Except.ok (NewSamples m)) := by
  unfold Gather
  rw [h]

/-- The seven baseline entries survive the uptime and user steps. -/
theorem baseline_kept [Div F] [IntCast F] (s : SystemStats) (env : Env F) (log log1 : Log)
    (la : AvgStat F) (n : Int) (k : String) (h1 : k ≠ "uptime") (h2 : k ≠ "n_users") :
    (usersStep s env log1 (uptimeStep env log (baselineFields la n)).2).2.get k
      = (baselineFields la n).get k := by
  rw [usersStep_get_ne _ _ _ _ _ h2, uptimeStep_get_ne _ _ _ _ h1]

/-! ## Claims on `Gather` -/

/-- C1: when the load-average query and the CPU-count query both succeed,
whatever the uptime and user-count queries answer, `Gather` reaches its last
line with a field map that holds `load1`, `load5`, `load15` and `n_cpus` as the
queries returned them and `load_norm_k` as `load_k / float64(n_cpus)` for
k = 1, 5, 15, and it returns the samples `NewSamples` makes of that map. -/
theorem gather_baseline_fields [Div F] [IntCast F] (s : SystemStats) (env : Env F)
    (log : Log) (la : AvgStat F) (n : Int)
    (hload : env.loadAvg = (some la, none)) (hcpu : env.cpuCounts = (n, none)) :
    ∃ log1 m,
      gatherFields s env log = (log1, FieldsOutcome.fields m) ∧
      Gather s env log = (log1, Except.ok (NewSamples m)) ∧
      m.get "load1" = some (FieldValue.float64 la.Load1) ∧
      m.get "load5" = some (FieldValue.float64 la.Load5) ∧
      m.get "load15" = some (FieldValue.float64 la.Load15) ∧
      m.get "n_cpus" = some (FieldValue.int n) ∧
      m.get "load_norm_1" = some (FieldValue.float64 (la.Load1 / (n : F))) ∧
      m.get "load_norm_5" = some (FieldValue.float64 (la.Load5 / (n : F))) ∧
      m.get "load_norm_15" = some (FieldValue.float64 (la.Load15 / (n : F))) := by
  have hf := gatherFields_reached s env log la none n hload rfl hcpu
  refine ⟨_, _, hf, Gather_of_fields s env log _ _ hf, ?_, ?_, ?_, ?_, ?_, ?_, ?_⟩
  all_goals
    rw [baseline_kept s env log _ la n _ (by decide) (by decide)]
    rfl

/-- C1, scenario 1 of the specification: loads 1, 2, 4 on 2 CPUs give the
normalised loads 0.5, 1 and 2. -/
theorem gather_baseline_fields_witness :
    ∃ log1 m,
      gatherFields stats0 env1 [] = (log1, FieldsOutcome.fields m) ∧
      Gather stats0 env1 [] = (log1, Except.ok (NewSamples m)) ∧
      m.get "load1" = some (FieldValue.float64 1) ∧
      m.get "load5" = some (FieldValue.float64 2) ∧
      m.get "load15" = some (FieldValue.float64 4) ∧
      m.get "n_cpus" = some (FieldValue.int 2) ∧
      m.get "load_norm_1" = some (FieldValue.float64 (0.5 : ℚ)) ∧
      m.get "load_norm_5" = some (FieldValue.float64 (1 : ℚ)) ∧
      m.get "load_norm_15" = some (FieldValue.float64 (2 : ℚ)) := by
  have h := gather_baseline_fields stats0 env1 []
    { Load1 := 1, Load5 := 2, Load15 := 4 } 2 rfl rfl
  norm_num at h
  norm_num
  exact h

/-- A fatal query error ends `Gather` at one of its two early returns. -/
theorem gatherFields_aborted [Div F] [IntCast F] (s : SystemStats) (env : Env F) (log : Log)
    (h : (∃ e, env.loadAvg.2 = some e ∧ stringsContains e.msg "not implemented" = false) ∨
      (∃ e, env.cpuCounts.2 = some e)) :
    (gatherFields s env log).2 = FieldsOutcome.aborted := by
  unfold gatherFields
  cases hla : env.loadAvg with
  | mk loadavg err =>
    cases hc : env.cpuCounts with
    | mk numCPUs cerr =>
      rcases h with ⟨e, he, hne⟩ | ⟨e, he⟩
      · rw [hla] at he
        simp only at he
        subst he
        simp [Option.filter, hne]
      · rw [hc] at he
        simp only at he
        subst he
        cases hfil : Option.filter (fun e => !stringsContains e.msg "not implemented") err <;>
          simp [hfil]

/-- C2: when the load-average query fails with an error whose text lacks
"not implemented", or the CPU-count query fails, `Gather` returns the empty
slice and `GatherOnce` returns with the queue as it found it, whatever the
uptime and user-count queries answer. -/
theorem gather_fatal_no_samples [Div F] [IntCast F] (s : SystemStats) (env : Env F)
    (q : Queue F) (log : Log)
    (h : (∃ e, env.loadAvg.2 = some e ∧ stringsContains e.msg "not implemented" = false) ∨
      (∃ e, env.cpuCounts.2 = some e)) :
    (Gather s env log).2 = Except.ok [] ∧
    (GatherOnce s env q log).queue = q ∧
    (GatherOnce s env q log).escaped = none := by
  have ha := gatherFields_aborted s env log h
  have hg : Gather s env log = ((gatherFields s env log).1, Except.ok []) := by
    unfold Gather
    cases hgf : gatherFields s env log with
    | mk log1 out =>
      rw [hgf] at ha
      simp only at ha
      subst ha
      rfl
  refine ⟨by rw [hg], ?_, ?_⟩ <;>
    simp [GatherOnce, gatherOnceBody, hg]

/-- C2 at concrete inputs: a load query that fails with "permission denied",
and a CPU-count query that fails while the load query is not implemented. -/
theorem gather_fatal_no_samples_witness :
    ((Gather stats0 envLoadDenied []).2 = Except.ok [] ∧
      (GatherOnce stats0 envLoadDenied queue0 []).queue = queue0 ∧
      (GatherOnce stats0 envLoadDenied queue0 []).escaped = none) ∧
    ((Gather stats0 envNoCpu []).2 = Except.ok [] ∧
      (GatherOnce stats0 envNoCpu queue0 []).queue = queue0 ∧
      (GatherOnce stats0 envNoCpu queue0 []).escaped = none) :=
  ⟨gather_fatal_no_samples stats0 envLoadDenied queue0 [] (Or.inl ⟨_, rfl, by decide⟩),
   gather_fatal_no_samples stats0 envNoCpu queue0 [] (Or.inr ⟨_, rfl⟩)⟩

/-- C3 at the failing input: `load.Avg()` answers `nil` with the error "not
implemented yet" and the CPU-count query succeeds.  `Gather` does not produce
the baseline fields: reading `loadavg.Load1` through the nil pointer panics;
`GatherOnce` recovers the panic, logs it and sends nothing. -/
theorem gather_not_implemented_nil_panics :
    Gather stats0 envNoLoad [] = ([], Except.error nilDereference) ∧
    (GatherOnce stats0 envNoLoad queue0 []).queue.sent = [] ∧
    (GatherOnce stats0 envNoLoad queue0 []).log =
      ["E! gather metrics panic: runtime error: invalid memory address or nil pointer dereference"] := by
  refine ⟨?_, ?_, ?_⟩ <;> rfl

/-- With the error "not implemented" and a value (zeros, say) handed back by
the load query, `Gather` goes on and builds the baseline fields from it. -/
theorem gather_not_implemented_value [Div F] [IntCast F] (s : SystemStats) (env : Env F)
    (log : Log) (la : AvgStat F) (e : Error) (n : Int)
    (hload : env.loadAvg = (some la, some e))
    (he : stringsContains e.msg "not implemented" = true)
    (hcpu : env.cpuCounts = (n, none)) :
    ∃ log1 m,
      Gather s env log = (log1, Except.ok (NewSamples m)) ∧
      m.get "load1" = some (FieldValue.float64 la.Load1) ∧
      m.get "load5" = some (FieldValue.float64 la.Load5) ∧
      m.get "load15" = some (FieldValue.float64 la.Load15) ∧
      m.get "n_cpus" = some (FieldValue.int n) ∧
      m.get "load_norm_1" = some (FieldValue.float64 (la.Load1 / (n : F))) ∧
      m.get "load_norm_5" = some (FieldValue.float64 (la.Load5 / (n : F))) ∧
      m.get "load_norm_15" = some (FieldValue.float64 (la.Load15 / (n : F))) := by
  have hf := gatherFields_reached s env log la (some e) n hload
    (by simp [Option.filter, he]) hcpu
  refine ⟨_, _, Gather_of_fields s env log _ _ hf, ?_, ?_, ?_, ?_, ?_, ?_, ?_⟩
  all_goals
    rw [baseline_kept s env log _ la n _ (by decide) (by decide)]
    rfl

/-- With the error "not implemented" and the nil pointer handed back by the
load query, `Gather` panics once the CPU count is there. -/
theorem gather_nil_load_panics [Div F] [IntCast F] (s : SystemStats) (env : Env F)
    (log : Log) (e : Error) (n : Int)
    (hload : env.loadAvg = (none, some e))
    (he : stringsContains e.msg "not implemented" = true)
    (hcpu : env.cpuCounts = (n, none)) :
    Gather s env log = (log, Except.error nilDereference) := by
  unfold Gather gatherFields
  rw [hload]
  simp [Option.filter, he, hcpu]

/-- C4: when the load-average and CPU-count queries succeed and the uptime
query fails, `Gather` still reaches its last line; its field map has no
`uptime` entry, holds the seven baseline fields, and agrees on every key but
`uptime` with the map of the same cycle in which the uptime query succeeds. -/
theorem gather_uptime_failure [Div F] [IntCast F] (s : SystemStats) (env : Env F)
    (log : Log) (la : AvgStat F) (n : Int) (u : Nat) (e : Error)
    (hload : env.loadAvg = (some la, none)) (hcpu : env.cpuCounts = (n, none))
    (hup : env.uptime = (u, some e)) :
    ∃ log1 m,
      gatherFields s env log = (log1, FieldsOutcome.fields m) ∧
      m.get "uptime" = none ∧
      m.get "load1" = some (FieldValue.float64 la.Load1) ∧
      m.get "load5" = some (FieldValue.float64 la.Load5) ∧
      m.get "load15" = some (FieldValue.float64 la.Load15) ∧
      m.get "n_cpus" = some (FieldValue.int n) ∧
      m.get "load_norm_1" = some (FieldValue.float64 (la.Load1 / (n : F))) ∧
      m.get "load_norm_5" = some (FieldValue.float64 (la.Load5 / (n : F))) ∧
      m.get "load_norm_15" = some (FieldValue.float64 (la.Load15 / (n : F))) ∧
      ∀ u1 : Nat, ∃ log2 m2,
        gatherFields s { env with uptime := (u1, none) } log
          = (log2, FieldsOutcome.fields m2) ∧
        m2.get "uptime" = some (FieldValue.uint64 u1) ∧
        ∀ k, k ≠ "uptime" → m2.get k = m.get k := by
  have hf := gatherFields_reached s env log la none n hload rfl hcpu
  refine ⟨_, _, hf, ?_, ?_, ?_, ?_, ?_, ?_, ?_, ?_, ?_⟩
  · rw [usersStep_get_ne _ _ _ _ _ (by decide)]
    unfold uptimeStep
    rw [hup]
    rfl
  iterate 7
    rw [baseline_kept s env log _ la n _ (by decide) (by decide)]
    rfl
  · intro u1
    have hf2 := gatherFields_reached s { env with uptime := (u1, none) } log la none n
      hload rfl hcpu
    refine ⟨_, _, hf2, ?_, ?_⟩
    · rw [usersStep_get_ne _ _ _ _ _ (by decide)]
      show ((baselineFields la n).set "uptime" (FieldValue.uint64 u1)).get "uptime" = _
      exact get_set_self _ _ _
    · intro k hk
      apply usersStep_get_congr
      · rfl
      · rw [uptimeStep_get_ne _ _ _ _ hk, uptimeStep_get_ne _ _ _ _ hk]

/-- C4 at a concrete input: scenario 1 with an uptime query that fails. -/
theorem gather_uptime_failure_witness :
    ∃ log1 m,
      gatherFields statsUsers { env1 with uptime := (0, some ⟨"no /proc/uptime", ErrClass.notExist⟩) } []
        = (log1, FieldsOutcome.fields m) ∧
      m.get "uptime" = none ∧
      m.get "load1" = some (FieldValue.float64 1) ∧
      m.get "load5" = some (FieldValue.float64 2) ∧
      m.get "load15" = some (FieldValue.float64 4) ∧
      m.get "n_cpus" = some (FieldValue.int 2) ∧
      m.get "load_norm_1" = some (FieldValue.float64 (1 / ((2 : Int) : ℚ))) ∧
      m.get "load_norm_5" = some (FieldValue.float64 (2 / ((2 : Int) : ℚ))) ∧
      m.get "load_norm_15" = some (FieldValue.float64 (4 / ((2 : Int) : ℚ))) ∧
      ∀ u1 : Nat, ∃ log2 m2,
        gatherFields statsUsers
          { ({ env1 with uptime := (0, some ⟨"no /proc/uptime", ErrClass.notExist⟩) } : Env ℚ)
            with uptime := (u1, none) } []
          = (log2, FieldsOutcome.fields m2) ∧
        m2.get "uptime" = some (FieldValue.uint64 u1) ∧
        ∀ k, k ≠ "uptime" → m2.get k = m.get k :=
  gather_uptime_failure statsUsers
    { env1 with uptime := (0, some ⟨"no /proc/uptime", ErrClass.notExist⟩) } []
    { Load1 := 1, Load5 := 2, Load15 := 4 } 2 0 ⟨"no /proc/uptime", ErrClass.notExist⟩
    rfl rfl rfl

/-- C5: in every cycle that gets past the load and CPU-count steps (the load
query returns a value with no error or with the exempted error "not
implemented", the CPU-count query succeeds), `n_users` is in the field map
exactly when `collect_user_number` is set and the user query succeeds, its
value then being the number of users returned; in every other case (flag off,
whatever the query answers; or the query failing with an error of any class)
the map is the one the cycle builds with the flag off, which has no `n_users`;
and in all cases every key but `n_users` reads as in that map. -/
theorem gather_n_users [Div F] [IntCast F] (s : SystemStats) (env : Env F)
    (log : Log) (la : AvgStat F) (err : Option Error) (n : Int)
    (hload : env.loadAvg = (some la, err))
    (herr : ∀ e, err = some e → stringsContains e.msg "not implemented" = true)
    (hcpu : env.cpuCounts = (n, none)) :
    ∃ log1 m log0 base,
      gatherFields s env log = (log1, FieldsOutcome.fields m) ∧
      gatherFields { s with CollectUserNumber := false } env log
        = (log0, FieldsOutcome.fields base) ∧
      base.get "n_users" = none ∧
      (m.get "n_users" ≠ none ↔ s.CollectUserNumber = true ∧ env.users.2 = none) ∧
      (s.CollectUserNumber = true → env.users.2 = none →
        m.get "n_users" = some (FieldValue.int env.users.1.length)) ∧
      (¬ (s.CollectUserNumber = true ∧ env.users.2 = none) → m = base) ∧
      ∀ k, k ≠ "n_users" → m.get k = base.get k := by
  have hfil : err.filter (fun e => !stringsContains e.msg "not implemented") = none := by
    cases err with
    | none => rfl
    | some e => simp [Option.filter, herr e rfl]
  have hf := gatherFields_reached s env log la err n hload hfil hcpu
  have hf0 := gatherFields_reached { s with CollectUserNumber := false } env log la err n
    hload hfil hcpu
  have hbase : ∀ l (m0 : FieldSet F),
      (usersStep { s with CollectUserNumber := false } env l m0).2 = m0 := by
    intro l m0
    simp [usersStep]
  have hnone : ((uptimeStep env log (baselineFields la n)).2).get "n_users" = none := by
    rw [uptimeStep_get_ne _ _ _ _ (by decide)]
    rfl
  refine ⟨_, _, _, _, hf, hf0, ?_, ?_, ?_, ?_, ?_⟩
  · rw [hbase]
    exact hnone
  · unfold usersStep
    cases hc : s.CollectUserNumber with
    | false => simp [hnone]
    | true =>
      cases hu : env.users with
      | mk users err =>
        cases err with
        | none => simp [get_set_self]
        | some e2 =>
          simp only [if_true]
          split <;> [skip; split] <;> simp [hnone]
  · intro hc hu
    unfold usersStep
    cases hu2 : env.users with
    | mk users err =>
      rw [hu2] at hu
      simp only at hu
      subst hu
      simp [hc, get_set_self]
  · intro hnot
    rw [hbase]
    unfold usersStep
    cases hc : s.CollectUserNumber with
    | false => simp
    | true =>
      cases hu : env.users with
      | mk users err =>
        cases err with
        | none => exact absurd ⟨hc, by rw [hu]⟩ hnot
        | some e2 =>
          simp only [if_true]
          split <;> [skip; split] <;> rfl
  · intro k hk
    rw [hbase]
    exact usersStep_get_ne _ _ _ _ _ hk

/-- C5 at a concrete input: `collect_user_number` set, one user logged in, and
a load query that hands back zeros with the error "not implemented yet". -/
theorem gather_n_users_witness :
    ∃ log1 m log0 base,
      gatherFields statsUsers envZeroLoad [] = (log1, FieldsOutcome.fields m) ∧
      gatherFields { statsUsers with CollectUserNumber := false } envZeroLoad []
        = (log0, FieldsOutcome.fields base) ∧
      base.get "n_users" = none ∧
      (m.get "n_users" ≠ none ↔
        statsUsers.CollectUserNumber = true ∧ envZeroLoad.users.2 = none) ∧
      (statsUsers.CollectUserNumber = true → envZeroLoad.users.2 = none →
        m.get "n_users" = some (FieldValue.int envZeroLoad.users.1.length)) ∧
      (¬ (statsUsers.CollectUserNumber = true ∧ envZeroLoad.users.2 = none) → m = base) ∧
      ∀ k, k ≠ "n_users" → m.get k = base.get k :=
  gather_n_users statsUsers envZeroLoad [] { Load1 := 0, Load5 := 0, Load15 := 0 }
    (some errNotImplemented) 2 rfl (by intro e he; cases he; decide) rfl

/-! ## Claims on `GatherOnce` -/

/-- The prefix `InputName + "_"`. -/
theorem inputName_underscore : InputName ++ "_" = "system_" := by decide

/-- On a channel that takes them all, the loop of `GatherOnce` sends every
sample, stamped, in order. -/
theorem sendSamples_accepts (now : Nat) (samples : List (Sample F)) (q : Queue F)
    (hq : q.accepts samples.length) :
    (sendSamples now samples q).1.sent = q.sent ++ samples.map (stamp now) ∧
    (sendSamples now samples q).2 = none := by
  induction samples generalizing q with
  | nil => simp [sendSamples]
  | cons x xs ih =>
    unfold sendSamples Queue.send
    cases hc : q.closesAfter with
    | none =>
      have h := ih { sent := q.sent ++ [stamp now x], closesAfter := none }
        (by intro k hk; cases hk)
      simpa using h
    | some c =>
      have hle := hq c hc
      cases c with
      | zero => simp at hle
      | succ c =>
        have h := ih { sent := q.sent ++ [stamp now x], closesAfter := some c }
          (by
            intro k hk
            cases hk
            simp only [List.length_cons] at hle
            omega)
        simpa using h

/-- Whatever the owner of the channel does, what the loop of `GatherOnce` sends
is an initial segment of the stamped list, in order: all of it on an open
channel, the first `k` samples when the channel closes after `k` sends. -/
theorem sendSamples_sent (now : Nat) (samples : List (Sample F)) (q : Queue F) :
    (sendSamples now samples q).1.sent =
      q.sent ++ (samples.map (stamp now)).take
        (match q.closesAfter with
          | none => samples.length
          | some k => k) := by
  induction samples generalizing q with
  | nil => cases h : q.closesAfter <;> simp [sendSamples]
  | cons x xs ih =>
    unfold sendSamples Queue.send
    cases hc : q.closesAfter with
    | none =>
      have h := ih { sent := q.sent ++ [stamp now x], closesAfter := none }
      simpa using h
    | some c =>
      cases c with
      | zero => simp
      | succ c =>
        have h := ih { sent := q.sent ++ [stamp now x], closesAfter := some c }
        simpa using h

/-- The only panic a send raises is the one of a closed channel. -/
theorem sendSamples_panic (now : Nat) (samples : List (Sample F)) (q : Queue F)
    (r : PanicValue) (h : (sendSamples now samples q).2 = some r) : r = sendOnClosed := by
  induction samples generalizing q with
  | nil => simp [sendSamples] at h
  | cons x xs ih =>
    unfold sendSamples Queue.send at h
    cases hc : q.closesAfter with
    | none =>
      rw [hc] at h
      exact ih _ h
    | some c =>
      rw [hc] at h
      cases c with
      | zero =>
        simp only [Option.some.injEq] at h
        exact h.symm
      | succ c => exact ih _ h

/-- C6 as stated fails: in scenario 1 `Gather` returns eight samples, and on
a queue its owner has closed `GatherOnce` sends none of them; the panic of the
first send is recovered without a word in the log. -/
theorem gatherOnce_closed_queue_sends_nothing :
    (∃ samples : List (Sample ℚ),
      Gather stats0 env1 [] = ([], Except.ok samples) ∧ samples.length = 8) ∧
    (GatherOnce stats0 env1 queueClosed []).queue.sent = [] ∧
    (GatherOnce stats0 env1 queueClosed []).log = [] ∧
    (GatherOnce stats0 env1 queueClosed []).escaped = none :=
  ⟨⟨_, rfl, rfl⟩, rfl, rfl, rfl⟩

/-- C6, amended: for the list `Gather` returns, on a queue that stays open for
the cycle, `GatherOnce` sends one sample per entry, in list order; the sample
sent for an entry has the name "system_" followed by the entry's name, the
entry's value and labels, and the instant `time.Now()` read once for the
cycle; for an empty list nothing is sent. -/
theorem gatherOnce_sends [Div F] [IntCast F] (s : SystemStats) (env : Env F) (q : Queue F)
    (log log1 : Log) (samples : List (Sample F))
    (hg : Gather s env log = (log1, Except.ok samples))
    (hq : q.accepts samples.length) :
    (GatherOnce s env q log).queue.sent =
      q.sent ++ samples.map (fun x =>
        { Metric := "system_" ++ x.Metric, Timestamp := env.now, Value := x.Value,
          Labels := x.Labels }) ∧
    (GatherOnce s env q log).log = log1 ∧
    (GatherOnce s env q log).escaped = none := by
  have hs := sendSamples_accepts env.now samples q hq
  have hstamp : (fun x : Sample F => stamp env.now x) = (fun x =>
      { Metric := "system_" ++ x.Metric, Timestamp := env.now, Value := x.Value,
        Labels := x.Labels }) := by
    funext x
    simp [stamp, inputName_underscore]
  have hbody : gatherOnceBody s env q log =
      ((sendSamples env.now samples q).1, log1, (sendSamples env.now samples q).2) := by
    unfold gatherOnceBody
    rw [hg]
    cases samples with
    | nil => simp [sendSamples]
    | cons x xs => simp
  unfold GatherOnce
  rw [hbody, hs.2]
  refine ⟨?_, rfl, rfl⟩
  show (sendSamples env.now samples q).1.sent = _
  rw [hs.1, ← hstamp]

/-- C6, amended, at a concrete input: scenario 1 on an open queue; the eight
samples `Gather` returns go out in order, each under the one instant of the
cycle. -/
theorem gatherOnce_sends_witness :
    ∃ samples : List (Sample ℚ),
      Gather stats0 env1 [] = ([], Except.ok samples) ∧
      samples.length = 8 ∧
      queue0.accepts samples.length ∧
      (GatherOnce stats0 env1 queue0 []).queue.sent =
        queue0.sent ++ samples.map (fun x =>
          { Metric := "system_" ++ x.Metric, Timestamp := env1.now, Value := x.Value,
            Labels := x.Labels }) ∧
      (GatherOnce stats0 env1 queue0 []).log = [] ∧
      (GatherOnce stats0 env1 queue0 []).escaped = none :=
  ⟨(NewSamples (usersStep stats0 env1 [] (uptimeStep env1 [] (baselineFields
      { Load1 := 1, Load5 := 2, Load15 := 4 } 2)).2).2), rfl, rfl,
    (by intro k hk; cases hk),
    gatherOnce_sends stats0 env1 queue0 [] [] _ rfl (by intro k hk; cases hk)⟩

/-- Whatever the owner of the queue does, what `GatherOnce` sends of the list
`Gather` returns is an initial segment of it, stamped and in order. -/
theorem gatherOnce_sent_segment [Div F] [IntCast F] (s : SystemStats) (env : Env F)
    (q : Queue F) (log log1 : Log) (samples : List (Sample F))
    (hg : Gather s env log = (log1, Except.ok samples)) :
    (GatherOnce s env q log).queue.sent =
      q.sent ++ (samples.map (stamp env.now)).take
        (match q.closesAfter with
          | none => samples.length
          | some k => k) := by
  have hbody : gatherOnceBody s env q log =
      ((sendSamples env.now samples q).1, log1, (sendSamples env.now samples q).2) := by
    unfold gatherOnceBody
    rw [hg]
    cases samples with
    | nil => simp [sendSamples]
    | cons x xs => simp
  have hq : (GatherOnce s env q log).queue = (sendSamples env.now samples q).1 := by
    unfold GatherOnce
    rw [hbody]
    cases (sendSamples env.now samples q).2 <;> rfl
  rw [hq]
  exact sendSamples_sent env.now samples q

/-- Without a fault, `gatherFieldsUnder` is `gatherFields`. -/
theorem gatherFieldsUnder_none [Div F] [IntCast F] (s : SystemStats) (env : Env F)
    (log : Log) : gatherFieldsUnder none s env log = gatherFields s env log := by
  unfold gatherFieldsUnder gatherFields
  simp only [raised, ite_self]

/-- Without a fault, `GatherUnder` is `Gather`. -/
theorem GatherUnder_none [Div F] [IntCast F] (s : SystemStats) (env : Env F)
    (log : Log) : GatherUnder none s env log = Gather s env log := by
  unfold GatherUnder Gather
  rw [gatherFieldsUnder_none]
  simp only [raised]

/-- Without a fault, `sendSamplesUnder` is `sendSamples`. -/
theorem sendSamplesUnder_none (now i : Nat) (samples : List (Sample F)) (q : Queue F) :
    sendSamplesUnder none now i samples q = sendSamples now samples q := by
  induction samples generalizing i q with
  | nil => rfl
  | cons x xs ih =>
    unfold sendSamplesUnder sendSamples
    simp only [raised]
    cases q.send (stamp now x) with
    | error r => rfl
    | ok q1 => exact ih (i + 1) q1

/-- Without a fault, `gatherOnceBodyUnder` is `gatherOnceBody`. -/
theorem gatherOnceBodyUnder_none [Div F] [IntCast F] (s : SystemStats) (env : Env F)
    (q : Queue F) (log : Log) :
    gatherOnceBodyUnder none s env q log = gatherOnceBody s env q log := by
  unfold gatherOnceBodyUnder gatherOnceBody
  rw [GatherUnder_none]
  simp only [raised, sendSamplesUnder_none]

/-- Without a fault, `GatherOnceUnder` is `GatherOnce`: the deferred function
run on the unwinding state gives what `GatherOnce` returns. -/
theorem GatherOnceUnder_none [Div F] [IntCast F] (s : SystemStats) (env : Env F)
    (q : Queue F) (log : Log) :
    GatherOnceUnder none s env q log = GatherOnce s env q log := by
  unfold GatherOnceUnder GatherOnce
  rw [gatherOnceBodyUnder_none]
  rcases gatherOnceBody s env q log with ⟨q1, log1, p⟩
  cases p with
  | none => rfl
  | some r =>
    simp only [deferred, recover, recovered]
    split <;> rfl

/-- Every panic value is one `GatherOnce` can meet: raised by the first call
of the cycle, it ends the body whatever the collector, the system and the queue
are. -/
theorem gatherOnceBodyUnder_any [Div F] [IntCast F] (r : PanicValue) (s : SystemStats)
    (env : Env F) (q : Queue F) (log : Log) :
    gatherOnceBodyUnder (some { call := Call.loadAvg, value := r }) s env q log
      = (q, log, some r) := by
  simp [gatherOnceBodyUnder, GatherUnder, gatherFieldsUnder, raised]

/-- C8: whenever the body of `GatherOnce` ends in a panic `r` (a failure raised
by any call of the cycle, in any iteration of the sending loop, by the nil
dereference inside `Gather` or by a send on a closed queue, with any value),
`GatherOnce` returns to its caller and lets no panic through; the queue is as
the panic left it; the log gets the one line "E! gather metrics panic: r" after
what the body logged, unless the text of `r` contains "closed channel", in
which case it gets nothing. -/
theorem gatherOnce_recovers [Div F] [IntCast F] (fault : Option Fault) (s : SystemStats)
    (env : Env F) (q q1 : Queue F) (log log1 : Log) (r : PanicValue)
    (hb : gatherOnceBodyUnder fault s env q log = (q1, log1, some r)) :
    (GatherOnceUnder fault s env q log).escaped = none ∧
    (GatherOnceUnder fault s env q log).queue = q1 ∧
    (GatherOnceUnder fault s env q log).log =
      if stringsContains r.text "closed channel" then log1
      else log1 ++ ["E! gather metrics panic: " ++ r.text] := by
  unfold GatherOnceUnder
  rw [hb]
  by_cases h : stringsContains r.text "closed channel" = true
  · simp [deferred, recover, h]
  · simp [deferred, recover, h, Println]

/-- C8 at concrete inputs: a panic raised inside `host.Uptime()` is logged
once and nothing is sent; the nil dereference inside `Gather` is logged once;
the send on a closed queue is not logged. -/
theorem gatherOnce_recovers_witness :
    ((GatherOnceUnder (some faultUptime) stats0 env1 queue0 []).escaped = none ∧
      (GatherOnceUnder (some faultUptime) stats0 env1 queue0 []).queue = queue0 ∧
      (GatherOnceUnder (some faultUptime) stats0 env1 queue0 []).log =
        ["E! gather metrics panic: runtime error: index out of range [3] with length 3"]) ∧
    ((GatherOnceUnder none stats0 envNoLoad queue0 []).escaped = none ∧
      (GatherOnceUnder none stats0 envNoLoad queue0 []).queue = queue0 ∧
      (GatherOnceUnder none stats0 envNoLoad queue0 []).log =
        ["E! gather metrics panic: runtime error: invalid memory address or nil pointer dereference"]) ∧
    ((GatherOnceUnder none stats0 env1 queueClosed []).escaped = none ∧
      (GatherOnceUnder none stats0 env1 queueClosed []).queue = queueClosed ∧
      (GatherOnceUnder none stats0 env1 queueClosed []).log = []) :=
  ⟨gatherOnce_recovers (some faultUptime) stats0 env1 queue0 queue0 [] [] faultUptime.value rfl,
   gatherOnce_recovers none stats0 envNoLoad queue0 queue0 [] [] nilDereference rfl,
   gatherOnce_recovers none stats0 env1 queueClosed queueClosed [] [] sendOnClosed rfl⟩

/-- With or without a fault, with or without a panic in the body,
`GatherOnce` returns with no panic under way. -/
theorem gatherOnceUnder_escaped [Div F] [IntCast F] (fault : Option Fault) (s : SystemStats)
    (env : Env F) (q : Queue F) (log : Log) :
    (GatherOnceUnder fault s env q log).escaped = none := by
  unfold GatherOnceUnder
  rcases gatherOnceBodyUnder fault s env q log with ⟨q1, log1, p⟩
  cases p with
  | none => rfl
  | some r =>
    simp only [deferred, recover]
    split <;> rfl

/-- A panic raised in the third iteration of the sending loop: two samples are
out, the panic is logged once, and `GatherOnce` returns. -/
theorem gatherOnceUnder_loop_fault :
    (GatherOnceUnder (some faultLoop) stats0 env1 queue0 []).queue.sent.length = 2 ∧
    (GatherOnceUnder (some faultLoop) stats0 env1 queue0 []).log =
      ["E! gather metrics panic: runtime error: invalid memory address or nil pointer dereference"] ∧
    (GatherOnceUnder (some faultLoop) stats0 env1 queue0 []).escaped = none := by
  refine ⟨?_, ?_, ?_⟩ <;> rfl

/-- `GatherOnce` never lets a panic through. -/
theorem gatherOnce_escaped [Div F] [IntCast F] (s : SystemStats) (env : Env F) (q : Queue F)
    (log : Log) : (GatherOnce s env q log).escaped = none := by
  unfold GatherOnce
  split <;> rfl

/-! ## Claim on `getInterval` -/

/-- An `int64` product that fits is not changed by the wrap. -/
theorem wrapInt64_of_fits (x : Int) (h : isInt64 x) : wrapInt64 x = x := by
  unfold isInt64 at h
  unfold wrapInt64
  omega

/-- C7 as stated fails: with `interval_seconds = 9223372037` the product
overflows `int64`, and `getInterval` returns a negative duration, not
9223372037 s. -/
theorem getInterval_overflow :
    getInterval { stats0 with IntervalSeconds := 9223372037 } 15000000000
      = -9223372036709551616 ∧
    getInterval { stats0 with IntervalSeconds := 9223372037 } 15000000000
      ≠ 9223372037 * 1000000000 := by
  decide

/-- C7, amended: `getInterval` returns the default `d` when `intervalSeconds`
is 0; otherwise it returns the `int64` product `intervalSeconds * 10^9`, which
is the duration of exactly `intervalSeconds` seconds when
`-9223372036 ≤ intervalSeconds ≤ 9223372036`, and that product wrapped to 64
bits in general. -/
theorem getInterval_spec (s : SystemStats) (d : Int) :
    (s.IntervalSeconds = 0 → getInterval s d = d) ∧
    (s.IntervalSeconds ≠ 0 →
      getInterval s d = wrapInt64 (s.IntervalSeconds * 1000000000) ∧
      isInt64 (getInterval s d)) ∧
    (s.IntervalSeconds ≠ 0 → -9223372036 ≤ s.IntervalSeconds →
      s.IntervalSeconds ≤ 9223372036 →
      getInterval s d = s.IntervalSeconds * 1000000000) := by
  unfold getInterval Second
  refine ⟨fun h => by simp [h], fun h => ?_, fun h h1 h2 => ?_⟩
  · simp only [h, ne_eq, not_false_eq_true, if_true, true_and]
    unfold wrapInt64 isInt64
    omega
  · simp only [h, ne_eq, not_false_eq_true, if_true]
    apply wrapInt64_of_fits
    unfold isInt64
    omega

/-- C7, amended, at `interval_seconds = 15` with the default 30 s. -/
theorem getInterval_spec_witness :
    getInterval statsUsers 30000000000 = 15 * 1000000000 :=
  (getInterval_spec statsUsers 30000000000).2.2 (by decide) (by decide) (by decide)

/-! ## The loop: invariants -/

theorem run_append [Div F] [IntCast F] (s : SystemStats) (d : Int) (st : Sys F)
    (a b : List (Event F)) :
    run s d st (a ++ b) = (run s d st a).bind (fun m => run s d m b) := by
  induction a generalizing st with
  | nil => rfl
  | cons e es ih =>
    simp only [List.cons_append, run]
    cases step s d st e with
    | none => rfl
    | some st1 => exact ih st1

theorem armed_init (q : Queue F) : Armed (Sys.init q) := by
  simp [Armed, Sys.init]

theorem step_stop [Div F] [IntCast F] (s : SystemStats) (d : Int) (st : Sys F) :
    step s d st Event.stop = some (StopGoroutines st) := rfl

theorem requested_stop (st : Sys F) (h : Armed st ∨ Requested st) :
    Requested (StopGoroutines st) := by
  unfold StopGoroutines
  rcases h with ⟨h1, h2, h3, h4, h5⟩ | ⟨h1, h2, h3, h4, h5⟩ | ⟨h1, h2, h3⟩
  · left
    simp [h1, h3, h4, h5]
  · left
    simp [h1, h3, h4, h5]
  · right
    simp [h1, h2, h3]

theorem sound_step [Div F] [IntCast F] (s : SystemStats) (d : Int) (st st1 : Sys F)
    (e : Event F) (h : Armed st ∨ Requested st) (hs : step s d st e = some st1) :
    (Armed st1 ∨ Requested st1) ∧ (Requested st → Requested st1) := by
  cases e with
  | stop =>
    rw [step_stop] at hs
    cases hs
    exact ⟨Or.inr (requested_stop st h), fun _ => requested_stop st h⟩
  | start =>
    simp only [step] at hs
    split at hs
    · rename_i hpc
      cases hs
      refine ⟨?_, ?_⟩
      · rcases h with ⟨h1, h2, h3, h4, h5⟩ | ⟨h1, h2, h3, h4, h5⟩ | ⟨h1, h2, h3⟩
        · left; simp [Armed, h1, h2, h3]
        · right; left; simp [h1, h2, h3]
        · rw [hpc] at h2; cases h2
      · rintro (⟨h1, h2, h3, h4, h5⟩ | ⟨h1, h2, h3⟩)
        · left; simp [h1, h2, h3]
        · rw [hpc] at h2; cases h2
    · cases hs
  | select =>
    simp only [step] at hs
    split at hs
    · rename_i hpc
      cases hs
      unfold loopSelect
      refine ⟨?_, ?_⟩
      · rcases h with ⟨h1, h2, h3, h4, h5⟩ | ⟨h1, h2, h3, h4, h5⟩ | ⟨h1, h2, h3⟩
        · left; simp [Armed, h1, h2, h3]
        · right; right; simp [h1, h2]
        · rw [hpc] at h2; cases h2
      · rintro (⟨h1, h2, h3, h4, h5⟩ | ⟨h1, h2, h3⟩)
        · right; simp [h1, h2]
        · rw [hpc] at h2; cases h2
    · cases hs
  | wake =>
    simp only [step] at hs
    split at hs
    · rename_i hpc
      cases hs
      refine ⟨?_, ?_⟩
      · rcases h with ⟨h1, h2, h3, h4, h5⟩ | ⟨h1, h2, h3, h4, h5⟩ | ⟨h1, h2, h3⟩
        · left; simp [Armed, h1, h2, h3]
        · right; left; simp [h1, h2, h3]
        · rw [hpc] at h2; cases h2
      · rintro (⟨h1, h2, h3, h4, h5⟩ | ⟨h1, h2, h3⟩)
        · left; simp [h1, h2, h3]
        · rw [hpc] at h2; cases h2
    · cases hs
  | gather env =>
    simp only [step, gatherOnce_escaped] at hs
    split at hs
    · rename_i hpc
      cases hs
      refine ⟨?_, ?_⟩
      · rcases h with ⟨h1, h2, h3, h4, h5⟩ | ⟨h1, h2, h3, h4, h5⟩ | ⟨h1, h2, h3⟩
        · left; simp [Armed, h1, h2, h3]
        · right; left; simp [h1, h2, h3]
        · rw [hpc] at h2; cases h2
      · rintro (⟨h1, h2, h3, h4, h5⟩ | ⟨h1, h2, h3⟩)
        · left; simp [h1, h2, h3]
        · rw [hpc] at h2; cases h2
    · cases hs

theorem sound_run [Div F] [IntCast F] (s : SystemStats) (d : Int) (st st1 : Sys F)
    (evs : List (Event F)) (h : Armed st ∨ Requested st) (hr : run s d st evs = some st1) :
    (Armed st1 ∨ Requested st1) ∧ (Requested st → Requested st1) := by
  induction evs generalizing st with
  | nil =>
    simp only [run, Option.some.injEq] at hr
    subst hr
    exact ⟨h, id⟩
  | cons e es ih =>
    simp only [run] at hr
    cases hs : step s d st e with
    | none => rw [hs] at hr; cases hr
    | some st2 =>
      rw [hs] at hr
      have h2 := sound_step s d st st2 e h hs
      have h3 := ih st2 h2.1 hr
      exact ⟨h3.1, fun hq => h3.2 (h2.2 hq)⟩

/-- Once a Stop is requested, the `select` of the loop takes the signal. -/
theorem select_stops [Div F] [IntCast F] (s : SystemStats) (d : Int) (st st1 : Sys F)
    (h : Requested st) (hs : step s d st Event.select = some st1) :
    st1.pc = LoopPc.stopped := by
  simp only [step] at hs
  split at hs
  · rename_i hpc
    cases hs
    unfold loopSelect
    rcases h with ⟨h1, h2, h3, h4, h5⟩ | ⟨h1, h2, h3⟩
    · simp [h1, h2]
    · rw [hpc] at h2; cases h2
  · cases hs

/-- A step other than the end of the sleep does not put the loop to sleep
once a Stop is requested. -/
theorem step_not_sleeping [Div F] [IntCast F] (s : SystemStats) (d : Int) (st st1 : Sys F)
    (e : Event F) (h : Requested st) (hs : step s d st e = some st1)
    (hsl : st1.pc = LoopPc.sleeping) : st.pc = LoopPc.sleeping := by
  cases e with
  | stop =>
    rw [step_stop] at hs
    cases hs
    unfold StopGoroutines at hsl
    split at hsl <;> exact hsl
  | select =>
    rw [select_stops s d st st1 h hs] at hsl
    cases hsl
  | start =>
    simp only [step] at hs
    split at hs
    · cases hs; cases hsl
    · cases hs
  | wake =>
    simp only [step] at hs
    split at hs
    · cases hs; cases hsl
    · cases hs
  | gather env =>
    simp only [step, gatherOnce_escaped] at hs
    split at hs
    · cases hs; cases hsl
    · cases hs

/-- Once a Stop is requested, at most one gather cycle starts, and none unless
the loop sleeps. -/
theorem wake_bound [Div F] [IntCast F] (s : SystemStats) (d : Int) (st st1 : Sys F)
    (evs : List (Event F)) (h : Requested st) (hr : run s d st evs = some st1) :
    evs.countP Event.isWake ≤ if st.pc = LoopPc.sleeping then 1 else 0 := by
  induction evs generalizing st with
  | nil => simp
  | cons e es ih =>
    simp only [run] at hr
    cases hs : step s d st e with
    | none => rw [hs] at hr; cases hr
    | some st2 =>
      rw [hs] at hr
      have hq2 := (sound_step s d st st2 e (Or.inr h) hs).2 h
      have hb := ih st2 hq2 hr
      by_cases hw : Event.isWake e = true
      · have he : e = Event.wake := by
          cases e <;> simp [Event.isWake] at hw ⊢
        subst he
        simp only [step] at hs
        split at hs
        · rename_i hpc
          cases hs
          simp only [hpc, if_true]
          simp only [reduceCtorEq, if_false, Nat.le_zero_eq] at hb
          rw [List.countP_cons_of_pos _ _ hw, hb]
        · cases hs
      · rw [List.countP_cons_of_neg _ _ hw]
        by_cases hsl : st2.pc = LoopPc.sleeping
        · rw [step_not_sleeping s d st st2 e h hs hsl]
          simpa [hsl] using hb
        · simp only [hsl, if_false, Nat.le_zero_eq] at hb
          rw [hb]
          exact Nat.zero_le _

/-- After the loop has returned, only calls of `StopGoroutines` happen, and
they leave the queue and the log alone. -/
theorem stopped_run [Div F] [IntCast F] (s : SystemStats) (d : Int) (st st1 : Sys F)
    (evs : List (Event F)) (h : st.pc = LoopPc.stopped) (hr : run s d st evs = some st1) :
    st1.pc = LoopPc.stopped ∧ st1.queue = st.queue ∧ st1.log = st.log ∧
      ∀ e ∈ evs, Event.isStop e = true := by
  induction evs generalizing st with
  | nil =>
    simp only [run, Option.some.injEq] at hr
    subst hr
    simp [h]
  | cons e es ih =>
    simp only [run] at hr
    cases hs : step s d st e with
    | none => rw [hs] at hr; cases hr
    | some st2 =>
      rw [hs] at hr
      cases e with
      | stop =>
        rw [step_stop] at hs
        cases hs
        have h2 : (StopGoroutines st).pc = LoopPc.stopped := by
          unfold StopGoroutines
          split <;> exact h
        have h3 := ih (StopGoroutines st) h2 hr
        have hq : (StopGoroutines st).queue = st.queue := by
          unfold StopGoroutines
          split <;> rfl
        have hl : (StopGoroutines st).log = st.log := by
          unfold StopGoroutines
          split <;> rfl
        refine ⟨h3.1, h3.2.1.trans hq, h3.2.2.1.trans hl, ?_⟩
        intro e he
        rcases List.mem_cons.1 he with rfl | he
        · rfl
        · exact h3.2.2.2 e he
      | start => simp [step, h] at hs
      | select => simp [step, h] at hs
      | wake => simp [step, h] at hs
      | gather env => simp [step, h] at hs

theorem run_cons_some [Div F] [IntCast F] (s : SystemStats) (d : Int) (st st1 : Sys F)
    (e : Event F) (es : List (Event F)) (h : run s d st (e :: es) = some st1) :
    ∃ m, step s d st e = some m ∧ run s d m es = some st1 := by
  simp only [run] at h
  cases hs : step s d st e with
  | none => rw [hs] at h; cases h
  | some m => rw [hs] at h; exact ⟨m, rfl, h⟩

theorem run_append_some [Div F] [IntCast F] (s : SystemStats) (d : Int) (st st1 : Sys F)
    (a b : List (Event F)) (h : run s d st (a ++ b) = some st1) :
    ∃ m, run s d st a = some m ∧ run s d m b = some st1 := by
  rw [run_append] at h
  cases hm : run s d st a with
  | none => rw [hm] at h; cases h
  | some m => rw [hm] at h; exact ⟨m, rfl, h⟩

/-- A closed token stays closed. -/
theorem step_closed [Div F] [IntCast F] (s : SystemStats) (d : Int) (st st1 : Sys F)
    (e : Event F) (hs : step s d st e = some st1) (h : st.quitClosed = true) :
    st1.quitClosed = true := by
  cases e with
  | stop =>
    rw [step_stop] at hs
    cases hs
    unfold StopGoroutines
    split <;> exact h
  | start =>
    simp only [step] at hs
    split at hs
    · cases hs; exact h
    · cases hs
  | select =>
    simp only [step] at hs
    split at hs
    · cases hs
      unfold loopSelect
      simp [h]
    · cases hs
  | wake =>
    simp only [step] at hs
    split at hs
    · cases hs; exact h
    · cases hs
  | gather env =>
    simp only [step, gatherOnce_escaped] at hs
    split at hs
    · cases hs; exact h
    · cases hs

theorem closings_closed [Div F] [IntCast F] (s : SystemStats) (d : Int) (st : Sys F)
    (evs : List (Event F)) (h : st.quitClosed = true) : closings s d st evs = 0 := by
  induction evs generalizing st with
  | nil => rfl
  | cons e es ih =>
    simp only [closings]
    cases hs : step s d st e with
    | none => rfl
    | some st1 =>
      simp only [h, Bool.true_eq_false, false_and, if_false, Nat.zero_add]
      exact ih st1 (step_closed s d st st1 e hs h)

theorem closings_le_one [Div F] [IntCast F] (s : SystemStats) (d : Int) (st : Sys F)
    (evs : List (Event F)) : closings s d st evs ≤ 1 := by
  induction evs generalizing st with
  | nil => simp [closings]
  | cons e es ih =>
    simp only [closings]
    cases hs : step s d st e with
    | none => simp
    | some st1 =>
      simp only
      split
      · rename_i hflip
        rw [closings_closed s d st1 es hflip.2]
      · rw [Nat.zero_add]
        exact ih st1

/-! ## Claims on the loop -/

/-- C9 as stated fails: in `stopWhileAsleep` the one call of `StopGoroutines`
comes after `StartGoroutines` while the loop sleeps (nothing sent yet, the
caller blocked); the sleep then ends, a gather cycle starts and sends nine
samples, and only the next `select` stops the loop. -/
theorem loop_gather_starts_after_stop :
    (run statsUsers 30000000000 (Sys.init queue0) (stopWhileAsleep.take 3)).map
        (fun st => (st.pc, st.blocked, st.queue.sent.length))
      = some (LoopPc.sleeping, 1, 0) ∧
    (run statsUsers 30000000000 (Sys.init queue0) stopWhileAsleep).map
        (fun st => (st.pc, st.returned, st.queue.sent.length))
      = some (LoopPc.stopped, 1, 9) ∧
    stopWhileAsleep.countP Event.isStop = 1 ∧
    ¬ NoGatherStartAfterStop stopWhileAsleep := by
  refine ⟨by rfl, by rfl, by rfl, ?_⟩
  intro h
  have h1 := h [Event.start, Event.select] [Event.wake, Event.gather env1, Event.select] rfl
    Event.wake (by simp)
  simp [Event.isWake] at h1

/-- C9, amended: in every execution, after a call of `StopGoroutines` has
begun, at most one gather cycle starts (the one of an iteration that had passed
its `select` before the call); the first `select` the loop executes after the
call moves it to STOPPED; from then on no gather cycle starts, nothing but
calls of `StopGoroutines` happens, and the queue stays as it was at that
transition. -/
theorem loop_after_stop [Div F] [IntCast F] (s : SystemStats) (d : Int) (q : Queue F)
    (pre post : List (Event F)) (st : Sys F)
    (hrun : run s d (Sys.init q) (pre ++ Event.stop :: post) = some st) :
    post.countP Event.isWake ≤ 1 ∧
    ∀ a b, post = a ++ Event.select :: b →
      ∃ mid, run s d (Sys.init q) (pre ++ Event.stop :: (a ++ [Event.select])) = some mid ∧
        mid.pc = LoopPc.stopped ∧
        st.pc = LoopPc.stopped ∧
        st.queue = mid.queue ∧
        (∀ e ∈ b, Event.isStop e = true) ∧
        b.countP Event.isWake = 0 := by
  obtain ⟨m0, hm0, h1⟩ := run_append_some s d _ _ _ _ hrun
  obtain ⟨m1, hm1, h2⟩ := run_cons_some s d _ _ _ _ h1
  rw [step_stop] at hm1
  cases hm1
  have hsound := (sound_run s d _ _ _ (Or.inl (armed_init q)) hm0).1
  have hreq := requested_stop m0 hsound
  refine ⟨?_, ?_⟩
  · have hb := wake_bound s d _ _ _ hreq h2
    split at hb
    · exact hb
    · exact hb.trans (Nat.zero_le 1)
  · intro a b hab
    subst hab
    obtain ⟨m2, hm2, h3⟩ := run_append_some s d _ _ _ _ h2
    obtain ⟨mid, hmid, h4⟩ := run_cons_some s d _ _ _ _ h3
    have hreq2 := (sound_run s d _ _ _ (Or.inr hreq) hm2).2 hreq
    have hstop := select_stops s d _ _ hreq2 hmid
    have hrest := stopped_run s d _ _ _ hstop h4
    refine ⟨mid, ?_, hstop, hrest.1, hrest.2.1, hrest.2.2.2, ?_⟩
    · rw [run_append, hm0]
      simp only [Option.bind, run, step_stop]
      rw [run_append, hm2]
      simp only [Option.bind, run, hmid]
    · rw [List.countP_eq_zero]
      intro e he
      have := hrest.2.2.2 e he
      cases e <;> simp [Event.isStop, Event.isWake] at this ⊢

/-- C9, amended, at the execution `stopWhileAsleep`: one gather cycle starts
after the call, and the `select` that follows stops the loop. -/
theorem loop_after_stop_witness :
    run statsUsers 30000000000 (Sys.init queue0)
        ([Event.start, Event.select] ++ Event.stop ::
          [Event.wake, Event.gather env1, Event.select]) = some afterStopWhileAsleep ∧
    [Event.wake, Event.gather env1, Event.select].countP Event.isWake ≤ 1 ∧
    ∀ a b, [Event.wake, Event.gather env1, Event.select] = a ++ Event.select :: b →
      ∃ mid, run statsUsers 30000000000 (Sys.init queue0)
          ([Event.start, Event.select] ++ Event.stop :: (a ++ [Event.select])) = some mid ∧
        mid.pc = LoopPc.stopped ∧
        afterStopWhileAsleep.pc = LoopPc.stopped ∧
        afterStopWhileAsleep.queue = mid.queue ∧
        (∀ e ∈ b, Event.isStop e = true) ∧
        b.countP Event.isWake = 0 :=
  ⟨rfl, loop_after_stop statsUsers 30000000000 queue0 [Event.start, Event.select]
    [Event.wake, Event.gather env1, Event.select] afterStopWhileAsleep rfl⟩

/-- C10: in every execution the cancellation token goes from armed to
signaled at most once; and once the loop has taken the signal of a call of
`StopGoroutines` (a call has returned, the loop is STOPPED), the channel is
closed and a further call of `StopGoroutines` ends in a panic: it neither
returns nor blocks. -/
theorem stop_after_observed_panics [Div F] [IntCast F] (s : SystemStats) (d : Int)
    (q : Queue F) (evs : List (Event F)) (st : Sys F)
    (hrun : run s d (Sys.init q) evs = some st) :
    closings s d (Sys.init q) evs ≤ 1 ∧
    (0 < st.returned ∨ st.pc = LoopPc.stopped →
      st.quitClosed = true ∧
      step s d st Event.stop = some { st with panicked := st.panicked + 1 }) := by
  refine ⟨closings_le_one s d _ evs, ?_⟩
  intro hobs
  have hsound := (sound_run s d _ _ _ (Or.inl (armed_init q)) hrun).1
  have hclosed : st.quitClosed = true := by
    rcases hsound with ⟨h1, h2, h3, h4, h5⟩ | ⟨h1, h2, h3, h4, h5⟩ | ⟨h1, h2, h3⟩
    · rcases hobs with h | h
      · omega
      · exact absurd h h4
    · rcases hobs with h | h
      · omega
      · exact absurd h h4
    · exact h1
  refine ⟨hclosed, ?_⟩
  rw [step_stop]
  unfold StopGoroutines
  simp [hclosed]

/-- C10 at the execution `stopObserved`: the token is closed once, and a
second call of `StopGoroutines` panics. -/
theorem stop_after_observed_panics_witness :
    run statsUsers 30000000000 (Sys.init queue0) stopObserved = some afterStopObserved ∧
    closings statsUsers 30000000000 (Sys.init queue0) stopObserved ≤ 1 ∧
    (0 < afterStopObserved.returned ∨ afterStopObserved.pc = LoopPc.stopped →
      afterStopObserved.quitClosed = true ∧
      step statsUsers 30000000000 afterStopObserved Event.stop
        = some { afterStopObserved with panicked := afterStopObserved.panicked + 1 }) :=
  ⟨rfl, stop_after_observed_panics statsUsers 30000000000 queue0 stopObserved
    afterStopObserved rfl⟩

/-- In `stopObserved` the token does go from armed to signaled. -/
theorem closings_stopObserved :
    closings statsUsers 30000000000 (Sys.init queue0) stopObserved = 1 := by
  rfl

end System
